import Mathlib

/-!
Verification of the neon-saber gesture rhythm game core.

The embedding translates the TypeScript source into Lean:

* `src/types.ts`           → `SlashDirection`, `HitResult`, `CubeData`, `BeatMapQ`, …
* `src/constants.ts`       → namespace `GAME_CONFIG`, `DIRECTION_VECTORS`
* `src/utils/slashValidator.ts` → `velocityToDirection`, `calculateSlashAngle`,
  `calculateHitScore`, `getAverageVelocity`
* `src/App.tsx` (`handleHandUpdate`)   → `handleHandUpdate` over `HandUpdState`
* beat detector module     → `BeatDetector` state, `calculateBPM`, `analyzeAudioBuffer`
* pattern generator module → `PatternGenerator` state machine with an explicit
  random stream `r : ℕ → ℚ` standing for the successive values of `Math.random()`

JavaScript floating point numbers are idealized as exact arithmetic: rationals
(`ℚ`) where the source only adds, multiplies, compares; reals (`ℝ`) where the
source calls `Math.sqrt` / `Math.acos`.  `Math.floor` is `Int.floor`,
`Math.round x` is `⌊x + 1/2⌋` (the JavaScript definition for the values that
occur here, which are all positive).
-/

namespace NeonSaber

/-- Three.js `Vector3` restricted to the operations the game uses; components
are exact rationals. -/
structure Vec3 where
  x : ℚ
  y : ℚ
  z : ℚ
  deriving DecidableEq, Repr

/-- `SlashDirection` enum from `src/types.ts`. -/
inductive SlashDirection where
  | UP | DOWN | LEFT | RIGHT
  | UP_LEFT | UP_RIGHT | DOWN_LEFT | DOWN_RIGHT
  | ANY
  deriving DecidableEq, Repr

-- Game configuration constants from `src/constants.ts` (`GAME_CONFIG`).
namespace GAME_CONFIG

def HIT_THRESHOLD : ℚ := 1
def MIN_SLASH_VELOCITY : ℚ := 3
def DIRECTION_TOLERANCE : ℚ := 45
def VELOCITY_HISTORY_SIZE : ℕ := 8
def MAX_ANGLE_SCORE : ℚ := 70
def MAX_SPEED_SCORE : ℚ := 15
def MAX_POSITION_SCORE : ℚ := 15
def PERFECT_THRESHOLD : ℚ := 9/10
def COMBO_MULTIPLIER_STEP : ℕ := 10
def MAX_COMBO_MULTIPLIER : ℚ := 8
def GRID_OFFSET_X : ℚ := -27/20
def GRID_OFFSET_Y : ℚ := 2/5
def COLUMN_SPACING : ℚ := 9/10
def ROW_SPACING : ℚ := 7/10
def SPAWN_Z : ℚ := -30

end GAME_CONFIG

/-- `DIRECTION_VECTORS` from `src/constants.ts`: the 2D (x, y) vector attached
to each direction; the diagonals use the literal constant `0.707`. -/
def DIRECTION_VECTORS : SlashDirection → ℚ × ℚ
  | SlashDirection.UP => (0, 1)
  | SlashDirection.DOWN => (0, -1)
  | SlashDirection.LEFT => (-1, 0)
  | SlashDirection.RIGHT => (1, 0)
  | SlashDirection.UP_LEFT => (-707/1000, 707/1000)
  | SlashDirection.UP_RIGHT => (707/1000, 707/1000)
  | SlashDirection.DOWN_LEFT => (-707/1000, -707/1000)
  | SlashDirection.DOWN_RIGHT => (707/1000, -707/1000)
  | SlashDirection.ANY => (0, 0)

/-- Scaling a velocity vector by a scalar (three.js `multiplyScalar`). -/
def scaleVec (c : ℚ) (v : Vec3) : Vec3 :=
  ⟨c * v.x, c * v.y, c * v.z⟩

/-- `velocityToDirection` from `src/utils/slashValidator.ts` lines 9–34.
The trailing cardinal-direction block is reachable both when the diagonal
test fails and (vacuously) when the four diagonal sign cases all fail. -/
def velocityToDirection (velocity : Vec3) : SlashDirection :=
  let x := velocity.x
  let y := velocity.y
  let diagonalThreshold : ℚ := 2/5
  let absX := |x|
  let absY := |y|
  let cardinal :=
    if absY > absX then (if y > 0 then SlashDirection.UP else SlashDirection.DOWN)
    else (if x > 0 then SlashDirection.RIGHT else SlashDirection.LEFT)
  if absX > diagonalThreshold ∧ absY > diagonalThreshold then
    if y > 0 ∧ x > 0 then SlashDirection.UP_RIGHT
    else if y > 0 ∧ x < 0 then SlashDirection.UP_LEFT
    else if y < 0 ∧ x > 0 then SlashDirection.DOWN_RIGHT
    else if y < 0 ∧ x < 0 then SlashDirection.DOWN_LEFT
    else cardinal
  else cardinal

section VelocityToDirectionFacts

/-- Helper: positive scaling preserves the sign tests used by
`velocityToDirection`. -/
lemma mul_pos_iff_of_pos (c t : ℚ) (hc : 0 < c) : 0 < c * t ↔ 0 < t := by
  constructor
  · intro h
    by_contra hne
    push_neg at hne
    nlinarith
  · intro h
    exact mul_pos hc h

lemma mul_neg_iff_of_pos (c t : ℚ) (hc : 0 < c) : c * t < 0 ↔ t < 0 := by
  constructor
  · intro h
    by_contra hne
    push_neg at hne
    nlinarith
  · intro h
    nlinarith

lemma abs_mul_lt_abs_mul_iff (c a b : ℚ) (hc : 0 < c) :
    |c * a| < |c * b| ↔ |a| < |b| := by
  rw [abs_mul, abs_mul, abs_of_pos hc]
  exact mul_lt_mul_left hc

end VelocityToDirectionFacts

/-- C1 (amended): `velocityToDirection` is invariant under scaling by a positive
constant `c` whenever the scaling does not change the outcome of the diagonal
test `|x| > 0.4 ∧ |y| > 0.4` (the test compares against the absolute constant
`0.4`, so it is not itself scale-invariant). -/
theorem C1_velocityToDirection_scale_invariant (v : Vec3) (c : ℚ) (hc : 0 < c)
    (hdiag : ((2/5 : ℚ) < |c * v.x| ∧ (2/5 : ℚ) < |c * v.y|) ↔
      ((2/5 : ℚ) < |v.x| ∧ (2/5 : ℚ) < |v.y|)) :
    velocityToDirection (scaleVec c v) = velocityToDirection v := by
  have hy : 0 < c * v.y ↔ 0 < v.y := mul_pos_iff_of_pos c v.y hc
  have hy' : c * v.y < 0 ↔ v.y < 0 := mul_neg_iff_of_pos c v.y hc
  have hx : 0 < c * v.x ↔ 0 < v.x := mul_pos_iff_of_pos c v.x hc
  have hx' : c * v.x < 0 ↔ v.x < 0 := mul_neg_iff_of_pos c v.x hc
  have habs : |c * v.x| < |c * v.y| ↔ |v.x| < |v.y| :=
    abs_mul_lt_abs_mul_iff c v.x v.y hc
  simp only [velocityToDirection, scaleVec, gt_iff_lt]
  simp only [hy, hy', hx, hx', habs, hdiag]

/-- C1 witness: scaling `(1,1,0)` by 2 leaves the classification unchanged. -/
theorem C1_witness :
    velocityToDirection (scaleVec 2 ⟨1, 1, 0⟩) = velocityToDirection ⟨1, 1, 0⟩ :=
  C1_velocityToDirection_scale_invariant ⟨1, 1, 0⟩ 2 (by norm_num) (by norm_num)

/-- C1 counterexample: the claim as stated is false.  `(1,1,0)` classifies as
`UP_RIGHT` but scaling it by the positive constant `1/10` yields `(0.1,0.1,0)`,
which fails the absolute 0.4 diagonal threshold and classifies as `RIGHT`. -/
theorem C1_counterexample :
    (0 : ℚ) < 1/10 ∧
    velocityToDirection (scaleVec (1/10) ⟨1, 1, 0⟩) ≠ velocityToDirection ⟨1, 1, 0⟩ := by
  refine ⟨by norm_num, ?_⟩
  norm_num [velocityToDirection, scaleVec]
  refine ⟨?_, by decide⟩
  rw [abs_of_nonneg (by norm_num : (0:ℚ) ≤ 1/10)]
  norm_num

/-- C10: `velocityToDirection` is total, never returns `ANY`, and classifies
the zero velocity vector as `LEFT`. -/
theorem C10_velocityToDirection_total :
    (∀ v : Vec3, velocityToDirection v ≠ SlashDirection.ANY) ∧
    velocityToDirection ⟨0, 0, 0⟩ = SlashDirection.LEFT := by
  constructor
  · intro v
    simp only [velocityToDirection]
    split_ifs <;> decide
  · norm_num [velocityToDirection]

/-- three.js `Vector3.normalize` divides by `length() || 1`; this is the
divisor. -/
noncomputable def jsNormFactor (l : ℝ) : ℝ := if l = 0 then 1 else l

/-- JavaScript `Math.round` on a real argument; all arguments occurring in the
scoring path are nonnegative, where `Math.round x = ⌊x + 1/2⌋`. -/
noncomputable def jsRound (x : ℝ) : ℤ := ⌊x + 1/2⌋

/-- JavaScript `Math.round` on a rational argument (used by the BPM paths,
where the argument is always positive). -/
def jsRoundQ (x : ℚ) : ℤ := ⌊x + 1/2⌋

section ScoringDefs

open Classical

/-- `calculateSlashAngle` from `src/utils/slashValidator.ts` lines 40–58:
angle in degrees between the required direction's unit vector and the
XY-projection of the slash velocity. -/
noncomputable def calculateSlashAngle (velocity : Vec3)
    (requiredDirection : SlashDirection) : ℝ :=
  if requiredDirection = SlashDirection.ANY then 0
  else
    let dirVec := DIRECTION_VECTORS requiredDirection
    let reqLen : ℝ := Real.sqrt ((dirVec.1 : ℝ)^2 + (dirVec.2 : ℝ)^2)
    let reqX : ℝ := (dirVec.1 : ℝ) / jsNormFactor reqLen
    let reqY : ℝ := (dirVec.2 : ℝ) / jsNormFactor reqLen
    let slashLen : ℝ := Real.sqrt ((velocity.x : ℝ)^2 + (velocity.y : ℝ)^2)
    if slashLen < 1/1000 then 180
    else
      let slashX := (velocity.x : ℝ) / jsNormFactor slashLen
      let slashY := (velocity.y : ℝ) / jsNormFactor slashLen
      let dot := reqX * slashX + reqY * slashY
      Real.arccos (max (-1) (min 1 dot)) * (180 / Real.pi)

/-- `HitResult` from `src/types.ts`. -/
structure HitResult where
  hit : Bool
  score : ℤ
  angleAccuracy : ℝ
  speedBonus : ℝ
  positionAccuracy : ℝ
  perfectHit : Bool

/-- The combo multiplier computed inside `calculateHitScore`
(`src/utils/slashValidator.ts` lines 135–138):
`1 + min(Math.floor(streak / COMBO_MULTIPLIER_STEP) * 0.1, MAX_COMBO_MULTIPLIER - 1)`.
For a natural-number streak, `Math.floor(streak / step)` is natural division. -/
def comboMultiplier (streak : ℕ) : ℚ :=
  1 + min (((streak / GAME_CONFIG.COMBO_MULTIPLIER_STEP : ℕ) : ℚ) * (1/10))
    (GAME_CONFIG.MAX_COMBO_MULTIPLIER - 1)

/-- `calculateHitScore` from `src/utils/slashValidator.ts` lines 81–154. -/
noncomputable def calculateHitScore (slashVelocity : Vec3)
    (requiredDirection : SlashDirection) (hitDistance : ℚ) (streak : ℕ) : HitResult :=
  let speed : ℝ := Real.sqrt ((slashVelocity.x : ℝ)^2 + (slashVelocity.y : ℝ)^2 +
    (slashVelocity.z : ℝ)^2)
  if speed < (GAME_CONFIG.MIN_SLASH_VELOCITY : ℝ) then
    { hit := false, score := 0, angleAccuracy := 0, speedBonus := 0,
      positionAccuracy := 0, perfectHit := false }
  else
    let angle := calculateSlashAngle slashVelocity requiredDirection
    let directionValid := angle ≤ (GAME_CONFIG.DIRECTION_TOLERANCE : ℝ)
    if ¬directionValid ∧ requiredDirection ≠ SlashDirection.ANY then
      { hit := false, score := 0, angleAccuracy := 0, speedBonus := 0,
        positionAccuracy := 0, perfectHit := false }
    else
      let angleAccuracy := max 0 (1 - angle / (GAME_CONFIG.DIRECTION_TOLERANCE : ℝ))
      let angleScore := angleAccuracy * (GAME_CONFIG.MAX_ANGLE_SCORE : ℝ)
      let speedAccuracy := min (speed / ((GAME_CONFIG.MIN_SLASH_VELOCITY : ℝ) * 3)) 1
      let speedScore := speedAccuracy * (GAME_CONFIG.MAX_SPEED_SCORE : ℝ)
      let maxDistance := (GAME_CONFIG.HIT_THRESHOLD : ℝ)
      let positionAccuracy := max 0 (1 - (hitDistance : ℝ) / maxDistance)
      let positionScore := positionAccuracy * (GAME_CONFIG.MAX_POSITION_SCORE : ℝ)
      let baseScore := angleScore + speedScore + positionScore
      let multiplier := comboMultiplier streak
      let finalScore := jsRound (baseScore * (multiplier : ℝ))
      let isPerfect := angleAccuracy ≥ (GAME_CONFIG.PERFECT_THRESHOLD : ℝ) ∧
        positionAccuracy ≥ (GAME_CONFIG.PERFECT_THRESHOLD : ℝ)
      { hit := true, score := finalScore, angleAccuracy := angleAccuracy,
        speedBonus := speedAccuracy, positionAccuracy := positionAccuracy,
        perfectHit := decide isPerfect }

end ScoringDefs

/-- C4: the combo multiplier equals `1 + min(⌊streak/10⌋ · 0.1, 7)`, is
non-decreasing in the streak, never exceeds the configured maximum 8, and a
streak of 25 yields multiplier 1.2. -/
theorem C4_combo_multiplier :
    (∀ s : ℕ, comboMultiplier s = 1 + min (((s / 10 : ℕ) : ℚ) * (1/10)) 7) ∧
    (∀ s t : ℕ, s ≤ t → comboMultiplier s ≤ comboMultiplier t) ∧
    (∀ s : ℕ, comboMultiplier s ≤ 8) ∧
    comboMultiplier 25 = 6/5 := by
  refine ⟨?_, ?_, ?_, ?_⟩
  · intro s
    norm_num [comboMultiplier, GAME_CONFIG.COMBO_MULTIPLIER_STEP,
      GAME_CONFIG.MAX_COMBO_MULTIPLIER]
  · intro s t hst
    have h1 : s / 10 ≤ t / 10 := Nat.div_le_div_right hst
    have h2 : ((s / 10 : ℕ) : ℚ) * (1/10) ≤ ((t / 10 : ℕ) : ℚ) * (1/10) := by
      have h3 := (Nat.cast_le (α := ℚ)).2 h1
      nlinarith
    simp only [comboMultiplier, GAME_CONFIG.COMBO_MULTIPLIER_STEP,
      GAME_CONFIG.MAX_COMBO_MULTIPLIER]
    have h4 := min_le_min h2 (le_refl (8 - 1 : ℚ))
    linarith
  · intro s
    simp only [comboMultiplier, GAME_CONFIG.COMBO_MULTIPLIER_STEP,
      GAME_CONFIG.MAX_COMBO_MULTIPLIER]
    have h5 : min (((s / 10 : ℕ) : ℚ) * (1/10)) (8 - 1 : ℚ) ≤ (8 - 1 : ℚ) :=
      min_le_right _ _
    linarith
  · norm_num [comboMultiplier, GAME_CONFIG.COMBO_MULTIPLIER_STEP,
      GAME_CONFIG.MAX_COMBO_MULTIPLIER]

/-- C4 witness: the monotonicity part applied at streaks 3 ≤ 12. -/
theorem C4_witness : comboMultiplier 3 ≤ comboMultiplier 12 :=
  C4_combo_multiplier.2.1 3 12 (by norm_num)

section SlashAngleFacts

/-- Unfolding of `calculateSlashAngle` on the main (non-`ANY`, non-degenerate)
path. -/
lemma calculateSlashAngle_eq (v : Vec3) (d : SlashDirection)
    (hd : ¬d = SlashDirection.ANY)
    (hlen : ¬Real.sqrt ((v.x : ℝ)^2 + (v.y : ℝ)^2) < 1/1000) :
    calculateSlashAngle v d =
      Real.arccos (max (-1) (min 1
        (((DIRECTION_VECTORS d).1 : ℝ) /
            jsNormFactor (Real.sqrt (((DIRECTION_VECTORS d).1 : ℝ)^2 +
              ((DIRECTION_VECTORS d).2 : ℝ)^2)) *
          ((v.x : ℝ) / jsNormFactor (Real.sqrt ((v.x : ℝ)^2 + (v.y : ℝ)^2))) +
         ((DIRECTION_VECTORS d).2 : ℝ) /
            jsNormFactor (Real.sqrt (((DIRECTION_VECTORS d).1 : ℝ)^2 +
              ((DIRECTION_VECTORS d).2 : ℝ)^2)) *
          ((v.y : ℝ) / jsNormFactor (Real.sqrt ((v.x : ℝ)^2 + (v.y : ℝ)^2)))))) *
        (180 / Real.pi) := by
  simp only [calculateSlashAngle]
  rw [if_neg hd, if_neg hlen]

lemma thousandth_lt_sqrt {q : ℝ} (h : (1/1000000 : ℝ) < q) :
    (1/1000 : ℝ) < Real.sqrt q := by
  rw [show (1/1000000 : ℝ) = (1/1000)^2 by norm_num] at h
  exact (Real.lt_sqrt (by norm_num)).2 h

/-- Core computation shared by the eight aligned/opposite cases of C6: for a
direction `d` whose lookup vector is `(a, b)`, slashing with velocity `(a,b,0)`
gives angle 0, and with `(-a,-b,0)` gives angle 180. -/
lemma slashAngle_core (a b : ℚ) (d : SlashDirection) (hd : ¬d = SlashDirection.ANY)
    (hdv : DIRECTION_VECTORS d = (a, b))
    (hq : (1/1000000 : ℝ) < (a : ℝ)^2 + (b : ℝ)^2) :
    calculateSlashAngle ⟨a, b, 0⟩ d = 0 ∧
    calculateSlashAngle ⟨-a, -b, 0⟩ d = 180 := by
  have hq0 : (0 : ℝ) < (a : ℝ)^2 + (b : ℝ)^2 := lt_trans (by norm_num) hq
  have hs0 : 0 < Real.sqrt ((a : ℝ)^2 + (b : ℝ)^2) := Real.sqrt_pos.2 hq0
  have hs : (1/1000 : ℝ) < Real.sqrt ((a : ℝ)^2 + (b : ℝ)^2) := thousandth_lt_sqrt hq
  have hfac : jsNormFactor (Real.sqrt ((a : ℝ)^2 + (b : ℝ)^2)) =
      Real.sqrt ((a : ℝ)^2 + (b : ℝ)^2) := if_neg (ne_of_gt hs0)
  have hsq : Real.sqrt ((a : ℝ)^2 + (b : ℝ)^2) ^ 2 = (a : ℝ)^2 + (b : ℝ)^2 :=
    Real.sq_sqrt hq0.le
  have hdot : (a : ℝ) / Real.sqrt ((a : ℝ)^2 + (b : ℝ)^2) *
        ((a : ℝ) / Real.sqrt ((a : ℝ)^2 + (b : ℝ)^2)) +
      (b : ℝ) / Real.sqrt ((a : ℝ)^2 + (b : ℝ)^2) *
        ((b : ℝ) / Real.sqrt ((a : ℝ)^2 + (b : ℝ)^2)) = 1 := by
    field_simp
    nlinarith [hsq]
  constructor
  · rw [calculateSlashAngle_eq ⟨a, b, 0⟩ d hd (by simpa using not_lt.2 hs.le)]
    simp only [hdv]
    rw [show ((⟨a, b, 0⟩ : Vec3).x : ℝ) = (a : ℝ) from rfl,
      show ((⟨a, b, 0⟩ : Vec3).y : ℝ) = (b : ℝ) from rfl] at *
    rw [hfac, hdot]
    rw [min_self, max_eq_right (by norm_num : (-1 : ℝ) ≤ 1), Real.arccos_one, zero_mul]
  · have hx : ((⟨-a, -b, 0⟩ : Vec3).x : ℝ) = -(a : ℝ) := by push_cast; rfl
    have hy : ((⟨-a, -b, 0⟩ : Vec3).y : ℝ) = -(b : ℝ) := by push_cast; rfl
    have hneg : (-(a : ℝ))^2 + (-(b : ℝ))^2 = (a : ℝ)^2 + (b : ℝ)^2 := by ring
    rw [calculateSlashAngle_eq ⟨-a, -b, 0⟩ d hd
      (by rw [hx, hy, hneg]; simpa using not_lt.2 hs.le)]
    simp only [hdv, hx, hy, hneg]
    rw [hfac]
    have hdot' : (a : ℝ) / Real.sqrt ((a : ℝ)^2 + (b : ℝ)^2) *
          (-(a : ℝ) / Real.sqrt ((a : ℝ)^2 + (b : ℝ)^2)) +
        (b : ℝ) / Real.sqrt ((a : ℝ)^2 + (b : ℝ)^2) *
          (-(b : ℝ) / Real.sqrt ((a : ℝ)^2 + (b : ℝ)^2)) = -1 := by
      field_simp
      nlinarith [hsq]
    rw [hdot']
    rw [min_eq_right (by norm_num : (-1 : ℝ) ≤ 1), max_self, Real.arccos_neg_one]
    rw [mul_comm, div_mul_cancel₀ _ Real.pi_ne_zero]

end SlashAngleFacts

/-- C6: `calculateSlashAngle` always returns a value in [0, 180]; it returns 0
for `ANY`; it returns 180 (for a concrete required direction) when the XY
projection of the velocity has length below the 0.001 epsilon; and for each of
the 8 concrete directions it returns 0 on a velocity exactly aligned with the
direction's vector and 180 on the exact opposite. -/
theorem C6_calculateSlashAngle_range :
    (∀ (v : Vec3) (d : SlashDirection),
      0 ≤ calculateSlashAngle v d ∧ calculateSlashAngle v d ≤ 180) ∧
    (∀ v : Vec3, calculateSlashAngle v SlashDirection.ANY = 0) ∧
    (∀ (v : Vec3) (d : SlashDirection), d ≠ SlashDirection.ANY →
      Real.sqrt ((v.x : ℝ)^2 + (v.y : ℝ)^2) < 1/1000 →
      calculateSlashAngle v d = 180) ∧
    (∀ d : SlashDirection, d ≠ SlashDirection.ANY →
      calculateSlashAngle ⟨(DIRECTION_VECTORS d).1, (DIRECTION_VECTORS d).2, 0⟩ d = 0 ∧
      calculateSlashAngle ⟨-(DIRECTION_VECTORS d).1, -(DIRECTION_VECTORS d).2, 0⟩ d = 180) := by
  have hany : ∀ v : Vec3, calculateSlashAngle v SlashDirection.ANY = 0 := by
    intro v
    simp [calculateSlashAngle]
  have hdeg : ∀ (v : Vec3) (d : SlashDirection), d ≠ SlashDirection.ANY →
      Real.sqrt ((v.x : ℝ)^2 + (v.y : ℝ)^2) < 1/1000 →
      calculateSlashAngle v d = 180 := by
    intro v d hd hlen
    simp only [calculateSlashAngle]
    rw [if_neg hd, if_pos hlen]
  refine ⟨?_, hany, hdeg, ?_⟩
  · intro v d
    by_cases hd : d = SlashDirection.ANY
    · subst hd
      rw [hany v]
      norm_num
    · by_cases hlen : Real.sqrt ((v.x : ℝ)^2 + (v.y : ℝ)^2) < 1/1000
      · rw [hdeg v d hd hlen]
        norm_num
      · rw [calculateSlashAngle_eq v d hd hlen]
        constructor
        · exact mul_nonneg (Real.arccos_nonneg _) (by positivity)
        · calc Real.arccos _ * (180 / Real.pi) ≤ Real.pi * (180 / Real.pi) :=
              mul_le_mul_of_nonneg_right (Real.arccos_le_pi _) (by positivity)
          _ = 180 := by rw [mul_comm, div_mul_cancel₀ _ Real.pi_ne_zero]
  · intro d hd
    cases d with
    | UP => exact slashAngle_core 0 1 _ hd rfl (by push_cast; norm_num)
    | DOWN => exact slashAngle_core 0 (-1) _ hd rfl (by push_cast; norm_num)
    | LEFT => exact slashAngle_core (-1) 0 _ hd rfl (by push_cast; norm_num)
    | RIGHT => exact slashAngle_core 1 0 _ hd rfl (by push_cast; norm_num)
    | UP_LEFT => exact slashAngle_core (-707/1000) (707/1000) _ hd rfl (by push_cast; norm_num)
    | UP_RIGHT => exact slashAngle_core (707/1000) (707/1000) _ hd rfl (by push_cast; norm_num)
    | DOWN_LEFT => exact slashAngle_core (-707/1000) (-707/1000) _ hd rfl (by push_cast; norm_num)
    | DOWN_RIGHT => exact slashAngle_core (707/1000) (-707/1000) _ hd rfl (by push_cast; norm_num)
    | ANY => exact absurd rfl hd

/-- C6 witness: the degenerate-motion and aligned/opposite parts applied at the
`UP` direction. -/
theorem C6_witness :
    calculateSlashAngle ⟨0, 0, 0⟩ SlashDirection.UP = 180 ∧
    calculateSlashAngle ⟨0, 1, 0⟩ SlashDirection.UP = 0 := by
  constructor
  · apply C6_calculateSlashAngle_range.2.2.1 ⟨0, 0, 0⟩ SlashDirection.UP (by decide)
    norm_num [Real.sqrt_zero]
  · have h := (C6_calculateSlashAngle_range.2.2.2 SlashDirection.UP (by decide)).1
    simpa [DIRECTION_VECTORS] using h

/-- C5: any slash whose speed (velocity magnitude) is below the minimum
slash-speed threshold is rejected with `hit = false` and score 0, for every
required direction, hit distance and streak. -/
theorem C5_min_velocity_reject (v : Vec3) (d : SlashDirection) (dist : ℚ) (streak : ℕ)
    (h : Real.sqrt ((v.x : ℝ)^2 + (v.y : ℝ)^2 + (v.z : ℝ)^2) <
      (GAME_CONFIG.MIN_SLASH_VELOCITY : ℝ)) :
    (calculateHitScore v d dist streak).hit = false ∧
    (calculateHitScore v d dist streak).score = 0 := by
  simp only [calculateHitScore]
  rw [if_pos h]
  exact ⟨rfl, rfl⟩

/-- C5 witness: the zero velocity (speed 0 < 3) is rejected. -/
theorem C5_witness :
    (calculateHitScore ⟨0, 0, 0⟩ SlashDirection.UP 0 0).hit = false ∧
    (calculateHitScore ⟨0, 0, 0⟩ SlashDirection.UP 0 0).score = 0 :=
  C5_min_velocity_reject ⟨0, 0, 0⟩ SlashDirection.UP 0 0 (by
    norm_num [Real.sqrt_zero, GAME_CONFIG.MIN_SLASH_VELOCITY])

section C3Facts

lemma sqrt_twentyfive : Real.sqrt 25 = 5 := by
  rw [show (25 : ℝ) = 5^2 by norm_num]
  exact Real.sqrt_sq (by norm_num)

lemma slashAngle_up_five : calculateSlashAngle ⟨0, 5, 0⟩ SlashDirection.UP = 0 := by
  have hlen : Real.sqrt (((0 : ℚ) : ℝ)^2 + ((5 : ℚ) : ℝ)^2) = 5 := by
    push_cast
    rw [show ((0 : ℝ)^2 + (5 : ℝ)^2) = 25 by norm_num]
    exact sqrt_twentyfive
  rw [calculateSlashAngle_eq ⟨0, 5, 0⟩ SlashDirection.UP (by decide)
    (by rw [show ((⟨0, 5, 0⟩ : Vec3).x : ℝ) = ((0 : ℚ) : ℝ) from rfl,
          show ((⟨0, 5, 0⟩ : Vec3).y : ℝ) = ((5 : ℚ) : ℝ) from rfl, hlen]
        norm_num)]
  simp only [DIRECTION_VECTORS]
  rw [show ((⟨0, 5, 0⟩ : Vec3).x : ℝ) = ((0 : ℚ) : ℝ) from rfl,
    show ((⟨0, 5, 0⟩ : Vec3).y : ℝ) = ((5 : ℚ) : ℝ) from rfl, hlen]
  push_cast
  rw [show ((0 : ℝ)^2 + (1 : ℝ)^2) = 1 by norm_num, Real.sqrt_one]
  rw [show jsNormFactor 1 = 1 from if_neg (by norm_num),
    show jsNormFactor 5 = 5 from if_neg (by norm_num)]
  norm_num [Real.arccos_one]

end C3Facts

/-- C3: the concrete perfect hit — velocity `(0,5,0)` against a `UP` target at
hit distance 0 and streak 0 yields `hit`, angle accuracy 1, position accuracy
1 and a perfect hit; and for all inputs, `perfectHit` holds exactly when both
angle accuracy and position accuracy are at least 0.9, independent of the
speed sub-score. -/
theorem C3_perfect_up_hit :
    ((calculateHitScore ⟨0, 5, 0⟩ SlashDirection.UP 0 0).hit = true ∧
     (calculateHitScore ⟨0, 5, 0⟩ SlashDirection.UP 0 0).angleAccuracy = 1 ∧
     (calculateHitScore ⟨0, 5, 0⟩ SlashDirection.UP 0 0).positionAccuracy = 1 ∧
     (calculateHitScore ⟨0, 5, 0⟩ SlashDirection.UP 0 0).perfectHit = true) ∧
    (∀ (v : Vec3) (d : SlashDirection) (dist : ℚ) (streak : ℕ),
      (calculateHitScore v d dist streak).perfectHit = true ↔
        ((9/10 : ℝ) ≤ (calculateHitScore v d dist streak).angleAccuracy ∧
         (9/10 : ℝ) ≤ (calculateHitScore v d dist streak).positionAccuracy)) := by
  constructor
  · have hspeed : Real.sqrt (((⟨0, 5, 0⟩ : Vec3).x : ℝ)^2 + ((⟨0, 5, 0⟩ : Vec3).y : ℝ)^2 +
        ((⟨0, 5, 0⟩ : Vec3).z : ℝ)^2) = 5 := by
      rw [show ((⟨0, 5, 0⟩ : Vec3).x : ℝ) = ((0 : ℚ) : ℝ) from rfl,
        show ((⟨0, 5, 0⟩ : Vec3).y : ℝ) = ((5 : ℚ) : ℝ) from rfl,
        show ((⟨0, 5, 0⟩ : Vec3).z : ℝ) = ((0 : ℚ) : ℝ) from rfl]
      push_cast
      rw [show ((0 : ℝ)^2 + (5 : ℝ)^2 + (0 : ℝ)^2) = 25 by norm_num]
      exact sqrt_twentyfive
    simp only [calculateHitScore]
    rw [hspeed, if_neg (by norm_num [GAME_CONFIG.MIN_SLASH_VELOCITY]),
      slashAngle_up_five,
      if_neg (by norm_num [GAME_CONFIG.DIRECTION_TOLERANCE])]
    refine ⟨rfl, ?_, ?_, ?_⟩
    · norm_num [GAME_CONFIG.DIRECTION_TOLERANCE]
    · norm_num [GAME_CONFIG.HIT_THRESHOLD]
    · rw [decide_eq_true_eq]
      norm_num [GAME_CONFIG.DIRECTION_TOLERANCE, GAME_CONFIG.HIT_THRESHOLD,
        GAME_CONFIG.PERFECT_THRESHOLD]
  · intro v d dist streak
    simp only [calculateHitScore]
    split_ifs with h1 h2
    · norm_num
    · norm_num
    · rw [decide_eq_true_eq]
      norm_num [GAME_CONFIG.PERFECT_THRESHOLD, ge_iff_le]

/-! ## Hand kinematics (`src/App.tsx`, `handleHandUpdate`) -/

/-- three.js `subVectors`. -/
def vsub (u v : Vec3) : Vec3 := ⟨u.x - v.x, u.y - v.y, u.z - v.z⟩

/-- three.js `divideScalar`. -/
def vdivScalar (v : Vec3) (c : ℚ) : Vec3 := ⟨v.x / c, v.y / c, v.z / c⟩

/-- The mutable state touched by `handleHandUpdate`: the `HandData` ref plus
the `prevHands` ref of `src/App.tsx`. -/
structure HandUpdState where
  leftVelocity : Vec3
  rightVelocity : Vec3
  leftVelocityHistory : List Vec3
  rightVelocityHistory : List Vec3
  leftDirection : Vec3
  rightDirection : Vec3
  left : Option Vec3
  right : Option Vec3
  prevLeft : Option Vec3
  prevRight : Option Vec3
  prevTime : ℚ
  deriving DecidableEq, Repr

/-- The initial contents of the two refs in `src/App.tsx`. -/
def initialHandUpdState : HandUpdState where
  leftVelocity := ⟨0, 0, 0⟩
  rightVelocity := ⟨0, 0, 0⟩
  leftVelocityHistory := []
  rightVelocityHistory := []
  leftDirection := ⟨0, 1, 0⟩
  rightDirection := ⟨0, 1, 0⟩
  left := none
  right := none
  prevLeft := none
  prevRight := none
  prevTime := 0

/-- `push` followed by conditional `shift` (evict oldest when the history
exceeds `VELOCITY_HISTORY_SIZE`). -/
def pushVelocity (h : List Vec3) (v : Vec3) : List Vec3 :=
  let h1 := h ++ [v]
  if h1.length > GAME_CONFIG.VELOCITY_HISTORY_SIZE then h1.tail else h1

/-- `handleHandUpdate` from `src/App.tsx` lines 41–86, as a pure state
transition on `HandUpdState`; `now` is `performance.now() / 1000`. -/
def handleHandUpdate (s : HandUpdState)
    (left right leftDir rightDir : Option Vec3) (now : ℚ) : HandUpdState :=
  let delta := now - s.prevTime
  let leftUpd : Vec3 × List Vec3 :=
    if delta > 0 then
      match left, s.prevLeft with
      | some l, some pl =>
        let newLeftVel := vdivScalar (vsub l pl) delta
        (newLeftVel, pushVelocity s.leftVelocityHistory newLeftVel)
      | _, _ => (⟨0, 0, 0⟩, [])
    else (s.leftVelocity, s.leftVelocityHistory)
  let rightUpd : Vec3 × List Vec3 :=
    if delta > 0 then
      match right, s.prevRight with
      | some r, some pr =>
        let newRightVel := vdivScalar (vsub r pr) delta
        (newRightVel, pushVelocity s.rightVelocityHistory newRightVel)
      | _, _ => (⟨0, 0, 0⟩, [])
    else (s.rightVelocity, s.rightVelocityHistory)
  { leftVelocity := leftUpd.1
    rightVelocity := rightUpd.1
    leftVelocityHistory := leftUpd.2
    rightVelocityHistory := rightUpd.2
    leftDirection := leftDir.getD s.leftDirection
    rightDirection := rightDir.getD s.rightDirection
    left := left
    right := right
    prevLeft := left
    prevRight := right
    prevTime := now }

/-- Unit-length predicate for direction vectors (squared norm 1, exact). -/
def dirUnit (v : Vec3) : Prop := v.x^2 + v.y^2 + v.z^2 = 1

lemma pushVelocity_length (h : List Vec3) (v : Vec3)
    (hlen : h.length ≤ GAME_CONFIG.VELOCITY_HISTORY_SIZE) :
    (pushVelocity h v).length ≤ GAME_CONFIG.VELOCITY_HISTORY_SIZE := by
  simp only [pushVelocity, GAME_CONFIG.VELOCITY_HISTORY_SIZE] at *
  split_ifs with hgt
  · simp
    omega
  · simp at hgt
    simp
    omega

/-- C7 (amended): after a hand-update step, (a) each hand's velocity history
stays within the capacity `VELOCITY_HISTORY_SIZE = 8` provided it was within
capacity before, (b) on a frame where time advanced (`prevTime < now`) an
absent hand sample forces that hand's velocity to zero and clears its history,
and (c) the stored direction stays unit-length provided it was unit-length and
every supplied direction sample is unit-length.  (When `now ≤ prevTime` the
velocity branch is skipped entirely, so (b) needs the time-advance proviso;
the direction is only as unit-length as the tracker's samples.) -/
theorem C7_hand_update_invariants :
    (∀ (s : HandUpdState) (l rr ld rd : Option Vec3) (now : ℚ),
      s.leftVelocityHistory.length ≤ GAME_CONFIG.VELOCITY_HISTORY_SIZE →
      (handleHandUpdate s l rr ld rd now).leftVelocityHistory.length ≤
        GAME_CONFIG.VELOCITY_HISTORY_SIZE) ∧
    (∀ (s : HandUpdState) (l rr ld rd : Option Vec3) (now : ℚ),
      s.rightVelocityHistory.length ≤ GAME_CONFIG.VELOCITY_HISTORY_SIZE →
      (handleHandUpdate s l rr ld rd now).rightVelocityHistory.length ≤
        GAME_CONFIG.VELOCITY_HISTORY_SIZE) ∧
    (∀ (s : HandUpdState) (rr ld rd : Option Vec3) (now : ℚ),
      s.prevTime < now →
      (handleHandUpdate s none rr ld rd now).leftVelocity = ⟨0, 0, 0⟩ ∧
      (handleHandUpdate s none rr ld rd now).leftVelocityHistory = []) ∧
    (∀ (s : HandUpdState) (l ld rd : Option Vec3) (now : ℚ),
      s.prevTime < now →
      (handleHandUpdate s l none ld rd now).rightVelocity = ⟨0, 0, 0⟩ ∧
      (handleHandUpdate s l none ld rd now).rightVelocityHistory = []) ∧
    (∀ (s : HandUpdState) (l rr ld rd : Option Vec3) (now : ℚ),
      dirUnit s.leftDirection → (∀ d, ld = some d → dirUnit d) →
      dirUnit (handleHandUpdate s l rr ld rd now).leftDirection) ∧
    (∀ (s : HandUpdState) (l rr ld rd : Option Vec3) (now : ℚ),
      dirUnit s.rightDirection → (∀ d, rd = some d → dirUnit d) →
      dirUnit (handleHandUpdate s l rr ld rd now).rightDirection) := by
  refine ⟨?_, ?_, ?_, ?_, ?_, ?_⟩
  · intro s l rr ld rd now hlen
    simp only [handleHandUpdate]
    split_ifs with hdelta
    · cases l with
      | none => cases s.prevLeft <;> simp
      | some lv =>
        cases s.prevLeft with
        | none => simp
        | some pl => exact pushVelocity_length _ _ hlen
    · exact hlen
  · intro s l rr ld rd now hlen
    simp only [handleHandUpdate]
    split_ifs with hdelta
    · cases rr with
      | none => cases s.prevRight <;> simp
      | some rv =>
        cases s.prevRight with
        | none => simp
        | some pr => exact pushVelocity_length _ _ hlen
    · exact hlen
  · intro s rr ld rd now hnow
    have hdelta : now - s.prevTime > 0 := sub_pos.2 hnow
    simp only [handleHandUpdate]
    rw [if_pos hdelta]
    cases s.prevLeft <;> exact ⟨rfl, rfl⟩
  · intro s l ld rd now hnow
    have hdelta : now - s.prevTime > 0 := sub_pos.2 hnow
    simp only [handleHandUpdate]
    rw [if_pos hdelta]
    cases s.prevRight <;> exact ⟨rfl, rfl⟩
  · intro s l rr ld rd now hunit hsamples
    simp only [handleHandUpdate]
    cases ld with
    | none => exact hunit
    | some d => exact hsamples d rfl
  · intro s l rr ld rd now hunit hsamples
    simp only [handleHandUpdate]
    cases rd with
    | none => exact hunit
    | some d => exact hsamples d rfl

/-- C7 witness: from the initial state, a frame at time 1 with both hands
absent leaves zero velocity and empty history. -/
theorem C7_witness :
    (handleHandUpdate initialHandUpdState none none none none 1).leftVelocity = ⟨0, 0, 0⟩ ∧
    (handleHandUpdate initialHandUpdState none none none none 1).leftVelocityHistory = [] :=
  C7_hand_update_invariants.2.2.1 initialHandUpdState none none none 1
    (by norm_num [initialHandUpdState])

/-- C7 counterexample: the claim as stated is false.  On a frame whose
timestamp equals the previous frame's timestamp (`delta = 0`, possible since
`performance.now()` is not strictly increasing), the velocity branch is
skipped: with the left hand absent, its stale velocity `(1,0,0)` and non-empty
history survive the step. -/
theorem C7_counterexample :
    (handleHandUpdate
        { leftVelocity := ⟨1, 0, 0⟩, rightVelocity := ⟨0, 0, 0⟩,
          leftVelocityHistory := [⟨1, 0, 0⟩], rightVelocityHistory := [],
          leftDirection := ⟨0, 1, 0⟩, rightDirection := ⟨0, 1, 0⟩,
          left := some ⟨1, 1, 0⟩, right := none,
          prevLeft := some ⟨1, 1, 0⟩, prevRight := none, prevTime := 1 }
        none none none none 1).leftVelocity ≠ ⟨0, 0, 0⟩ ∧
    (handleHandUpdate
        { leftVelocity := ⟨1, 0, 0⟩, rightVelocity := ⟨0, 0, 0⟩,
          leftVelocityHistory := [⟨1, 0, 0⟩], rightVelocityHistory := [],
          leftDirection := ⟨0, 1, 0⟩, rightDirection := ⟨0, 1, 0⟩,
          left := some ⟨1, 1, 0⟩, right := none,
          prevLeft := some ⟨1, 1, 0⟩, prevRight := none, prevTime := 1 }
        none none none none 1).leftVelocityHistory ≠ [] := by
  constructor
  · simp only [handleHandUpdate]
    rw [if_neg (by norm_num)]
    simp [Vec3.mk.injEq]
  · simp only [handleHandUpdate]
    rw [if_neg (by norm_num)]
    simp

/-! ## Beat detection (beat detector module) -/

/-- `BeatEvent.type` values from `src/types.ts`. -/
inductive BeatType where
  | kick | snare | hihat | vocal | melody | beat
  deriving DecidableEq, Repr

/-- `BeatEvent` from `src/types.ts`; intensities produced by the offline
analyzer are energy-derived reals. -/
structure BeatEventQ where
  time : ℚ
  type : BeatType
  intensity : ℝ

/-- `BeatMap` from `src/types.ts` (the `events` field is optional). -/
structure BeatMapQ where
  bpm : ℤ
  beats : List ℚ
  onsets : List ℚ
  events : Option (List BeatEventQ)

/-- The `for (let i = 1; …) intervals.push(ts[i] - ts[i-1])` loops. -/
def consecutiveIntervals (ts : List ℚ) : List ℚ :=
  (ts.zip ts.tail).map (fun p => p.2 - p.1)

/-- `BeatDetector.calculateBPM` (beat detector module, lines 167–186). -/
def calculateBPM (beatTimes : List ℚ) : ℤ :=
  if beatTimes.length < 2 then 0
  else
    let intervals := consecutiveIntervals beatTimes
    let filteredIntervals := intervals.filter (fun i => decide ((1/4 : ℚ) < i ∧ i < 3/2))
    if filteredIntervals.length = 0 then 0
    else
      let avgInterval := filteredIntervals.sum / filteredIntervals.length
      jsRoundQ (60 / avgInterval)

/-- The BPM-relevant fields of the online `BeatDetector`. -/
structure BeatDetectorState where
  beatTimes : List ℚ
  detectedBPM : ℤ
  deriving DecidableEq, Repr

/-- A freshly constructed `BeatDetector` (`detectedBPM = 0`, no beat times). -/
def BeatDetectorState.init : BeatDetectorState := ⟨[], 0⟩

/-- `BeatDetector.getBPM`. -/
def getBPM (s : BeatDetectorState) : ℤ := s.detectedBPM

/-- The `if (kick)` branch of `BeatDetector.analyze` (lines 119–131): push the
current time, trim to the last 20 beats, and recompute the BPM once more than
4 beats are known. -/
def stepKick (s : BeatDetectorState) (now : ℚ) : BeatDetectorState :=
  let bt1 := s.beatTimes ++ [now]
  let bt2 := if bt1.length > 20 then bt1.tail else bt1
  let bpm := if bt2.length > 4 then calculateBPM bt2 else s.detectedBPM
  ⟨bt2, bpm⟩

/-- `analyzeAudioBuffer`: `windowSize = Math.floor(sampleRate * 0.023)`. -/
def windowSizeOf (sampleRate : ℚ) : ℕ := (Int.floor (sampleRate * (23/1000))).toNat

/-- `analyzeAudioBuffer`: `hopSize = Math.floor(windowSize / 2)`. -/
def hopSizeOf (sampleRate : ℚ) : ℕ := windowSizeOf sampleRate / 2

/-- The window start offsets `i = 0, hop, 2·hop, …` with
`i < channelData.length - windowSize` (the outer loop of
`analyzeAudioBuffer`); empty when the hop size degenerates to 0, in which case
the source loop would not terminate. -/
def windowStarts (len win hop : ℕ) : List ℕ :=
  if hop = 0 then []
  else (List.range (((len - win) + hop - 1) / hop)).map (· * hop)

/-- The per-window sum of squared samples (`energy += channelData[i+j] ** 2`).
Out-of-range reads default to 0; the loop bound keeps all reads in range. -/
def sumSqWindow (data : List ℚ) (i win : ℕ) : ℚ :=
  ((List.range win).map (fun j => data.getD (i + j) 0 ^ 2)).sum

/-- The per-window RMS energy `Math.sqrt(energy / windowSize)`. -/
noncomputable def windowEnergy (data : List ℚ) (win i : ℕ) : ℝ :=
  Real.sqrt ((sumSqWindow data i win : ℝ) / win)

/-- Running state of the onset-detection loop in `analyzeAudioBuffer`. -/
structure OnsetState where
  prevEnergy : ℝ
  energyHistory : List ℝ
  onsets : List ℚ
  events : List BeatEventQ

section OnsetDefs

open Classical

/-- One iteration of the onset-detection loop of `analyzeAudioBuffer`
(lines 255–287): push the energy into a 43-sample history, build the adaptive
threshold `avg * 1.5`, and flag an onset when the energy beats both the
threshold and `1.3×` the previous window's energy. -/
noncomputable def onsetStep (st : OnsetState) (te : ℚ × ℝ) : OnsetState :=
  let energy := te.2
  let h1 := st.energyHistory ++ [energy]
  let h2 := if h1.length > 43 then h1.tail else h1
  let avgEnergy := h2.sum / h2.length
  let threshold := avgEnergy * (3/2)
  let time := te.1
  if energy > threshold ∧ energy > st.prevEnergy * (13/10) then
    { prevEnergy := energy, energyHistory := h2,
      onsets := st.onsets ++ [time],
      events := st.events ++ [⟨time, BeatType.beat, min (energy / (1/2)) 1⟩] }
  else
    { prevEnergy := energy, energyHistory := h2,
      onsets := st.onsets, events := st.events }

/-- The whole onset-detection loop, fed the (time, energy) pair of every
window in order. -/
noncomputable def onsetPass (ws : List (ℚ × ℝ)) : OnsetState :=
  ws.foldl onsetStep ⟨0, [], [], []⟩

end OnsetDefs

/-- The onset→beat deduplication loop of `analyzeAudioBuffer` (lines 289–296):
keep an onset as a beat when it is more than 100 ms after the last kept one;
`lastBeatTime` starts at −1. -/
def dedupeBeats : List ℚ → ℚ → List ℚ
  | [], _ => []
  | o :: os, lastBeatTime =>
    if o - lastBeatTime > 1/10 then o :: dedupeBeats os o
    else dedupeBeats os lastBeatTime

/-- The BPM computation of `analyzeAudioBuffer` (lines 298–309): intervals of
the first 50 beats, filtered to the plausible range (0.25 s, 1.5 s), averaged
with fallback 0.5 s, then `Math.round(60 / avgInterval)`. -/
def computeBPMFromBeats (beats : List ℚ) : ℤ :=
  let someBeats := beats.take 50
  let intervals := consecutiveIntervals someBeats
  let filteredIntervals := intervals.filter (fun i => decide ((1/4 : ℚ) < i ∧ i < 3/2))
  let avgInterval : ℚ :=
    if filteredIntervals.length > 0 then filteredIntervals.sum / filteredIntervals.length
    else 1/2
  jsRoundQ (60 / avgInterval)

/-- `analyzeAudioBuffer` (beat detector module, lines 238–317). -/
noncomputable def analyzeAudioBuffer (channelData : List ℚ) (sampleRate : ℚ) : BeatMapQ :=
  let windowSize := windowSizeOf sampleRate
  let hopSize := hopSizeOf sampleRate
  let starts := windowStarts channelData.length windowSize hopSize
  let windows := starts.map
    (fun (i : ℕ) => ((i : ℚ) / sampleRate, windowEnergy channelData windowSize i))
  let res := onsetPass windows
  let beats := dedupeBeats res.onsets (-1)
  let bpm := computeBPMFromBeats beats
  { bpm := bpm, beats := beats, onsets := res.onsets, events := some res.events }

section BeatAnalyzerFacts

lemma getD_replicate_zero (n k : ℕ) : (List.replicate n (0 : ℚ)).getD k 0 = 0 := by
  rcases lt_or_le k n with h | h
  · rw [List.getD_eq_getElem _ _ (by simpa using h)]
    simp
  · rw [List.getD_eq_default _ _ (by simpa using h)]

lemma sumSqWindow_replicate_zero (n i win : ℕ) :
    sumSqWindow (List.replicate n (0 : ℚ)) i win = 0 := by
  unfold sumSqWindow
  apply List.sum_eq_zero
  intro x hx
  obtain ⟨j, hj, rfl⟩ := List.mem_map.1 hx
  rw [getD_replicate_zero]
  norm_num

lemma windowEnergy_replicate_zero (n win i : ℕ) :
    windowEnergy (List.replicate n (0 : ℚ)) win i = 0 := by
  unfold windowEnergy
  rw [sumSqWindow_replicate_zero]
  push_cast
  rw [zero_div, Real.sqrt_zero]

lemma onsetFold_zero (ws : List (ℚ × ℝ)) (st : OnsetState)
    (hprev : st.prevEnergy = 0) (hws : ∀ p ∈ ws, p.2 = 0) :
    (ws.foldl onsetStep st).onsets = st.onsets ∧
    (ws.foldl onsetStep st).events = st.events := by
  induction ws generalizing st with
  | nil => exact ⟨rfl, rfl⟩
  | cons p ps ih =>
    have hp : p.2 = 0 := hws p (List.mem_cons_self _ _)
    have hstep1 : (onsetStep st p).prevEnergy = 0 := by
      simp only [onsetStep, hp, hprev]
      rw [if_neg]
      rintro ⟨-, hcon⟩
      norm_num at hcon
    have hstep2 : (onsetStep st p).onsets = st.onsets ∧
        (onsetStep st p).events = st.events := by
      simp only [onsetStep, hp, hprev]
      rw [if_neg]
      · exact ⟨rfl, rfl⟩
      · rintro ⟨-, hcon⟩
        norm_num at hcon
    rw [List.foldl_cons]
    obtain ⟨ho, he⟩ := ih (onsetStep st p) hstep1
      (fun q hq => hws q (List.mem_cons_of_mem _ hq))
    rw [ho, he, hstep2.1, hstep2.2]
    exact ⟨rfl, rfl⟩

lemma list_len_mul_lt_sum (l : List ℚ) (a : ℚ) (hne : l ≠ [])
    (hall : ∀ x ∈ l, a < x) : (l.length : ℚ) * a < l.sum := by
  induction l with
  | nil => exact absurd rfl hne
  | cons x xs ih =>
    rcases eq_or_ne xs [] with rfl | hxs
    · simpa using hall x (by simp)
    · have h1 := ih hxs (fun y hy => hall y (List.mem_cons_of_mem _ hy))
      have h2 := hall x (by simp)
      simp only [List.length_cons, List.sum_cons]
      push_cast
      linarith

lemma list_sum_lt_len_mul (l : List ℚ) (a : ℚ) (hne : l ≠ [])
    (hall : ∀ x ∈ l, x < a) : l.sum < (l.length : ℚ) * a := by
  induction l with
  | nil => exact absurd rfl hne
  | cons x xs ih =>
    rcases eq_or_ne xs [] with rfl | hxs
    · simpa using hall x (by simp)
    · have h1 := ih hxs (fun y hy => hall y (List.mem_cons_of_mem _ hy))
      have h2 := hall x (by simp)
      simp only [List.length_cons, List.sum_cons]
      push_cast
      linarith

lemma jsRoundQ_interval_bpm (avg : ℚ) (h1 : 1/4 < avg) (h2 : avg < 3/2) :
    40 ≤ jsRoundQ (60 / avg) ∧ jsRoundQ (60 / avg) ≤ 240 := by
  have hpos : 0 < avg := by linarith
  have hgt : (40 : ℚ) < 60 / avg := by
    rw [lt_div_iff₀ hpos]
    linarith
  have hlt : (60 : ℚ) / avg < 240 := by
    rw [div_lt_iff₀ hpos]
    linarith
  unfold jsRoundQ
  constructor
  · rw [Int.le_floor]
    push_cast
    linarith
  · have hfl : ⌊(60 : ℚ) / avg + 1/2⌋ < 241 := by
      rw [Int.floor_lt]
      push_cast
      linarith
    omega

lemma avg_interval_bounds (l : List ℚ) (hne : l.length > 0)
    (hall : ∀ x ∈ l, 1/4 < x ∧ x < 3/2) :
    1/4 < l.sum / l.length ∧ l.sum / l.length < 3/2 := by
  have hne' : l ≠ [] := by
    intro h
    rw [h] at hne
    simp at hne
  have hlen : (0 : ℚ) < l.length := by
    have := List.length_pos.2 hne'
    exact_mod_cast this
  constructor
  · rw [lt_div_iff₀ hlen]
    have := list_len_mul_lt_sum l (1/4) hne' (fun x hx => (hall x hx).1)
    linarith [this]
  · rw [div_lt_iff₀ hlen]
    have := list_sum_lt_len_mul l (3/2) hne' (fun x hx => (hall x hx).2)
    linarith [this]

lemma mem_filtered_intervals {l : List ℚ} {x : ℚ}
    (hx : x ∈ l.filter (fun i => decide ((1/4 : ℚ) < i ∧ i < 3/2))) :
    1/4 < x ∧ x < 3/2 := by
  have := List.of_mem_filter hx
  simpa using this

lemma computeBPMFromBeats_bounds (beats : List ℚ) :
    40 ≤ computeBPMFromBeats beats ∧ computeBPMFromBeats beats ≤ 240 := by
  simp only [computeBPMFromBeats]
  split_ifs with h
  · have hb := avg_interval_bounds _ h (fun x hx => mem_filtered_intervals hx)
    exact jsRoundQ_interval_bpm _ hb.1 hb.2
  · simp only [jsRoundQ]
    norm_num

lemma computeBPMFromBeats_fallback (beats : List ℚ)
    (h : (consecutiveIntervals (beats.take 50)).filter
      (fun i => decide ((1/4 : ℚ) < i ∧ i < 3/2)) = []) :
    computeBPMFromBeats beats = 120 := by
  simp only [computeBPMFromBeats, h]
  simp only [jsRoundQ]
  norm_num

lemma calculateBPM_cases (ts : List ℚ) :
    calculateBPM ts = 0 ∨ (40 ≤ calculateBPM ts ∧ calculateBPM ts ≤ 240) := by
  simp only [calculateBPM]
  split_ifs with h1 h2
  · exact Or.inl rfl
  · exact Or.inl rfl
  · right
    have hlen : (consecutiveIntervals ts).filter
        (fun i => decide ((1/4 : ℚ) < i ∧ i < 3/2)) ≠ [] := by
      intro h
      rw [h] at h2
      simp at h2
    have hpos : ((consecutiveIntervals ts).filter
        (fun i => decide ((1/4 : ℚ) < i ∧ i < 3/2))).length > 0 :=
      List.length_pos.2 hlen
    have hb := avg_interval_bounds _ hpos (fun x hx => mem_filtered_intervals hx)
    exact jsRoundQ_interval_bpm _ hb.1 hb.2

end BeatAnalyzerFacts

/-- C2 (amended): the offline analyzer's BPM is always a positive integer in
[40, 240] — exactly 120 via the 0.5 s fallback interval whenever no interval
survives the (0.25 s, 1.5 s) plausibility filter — and on an all-zero (silent)
buffer it returns an empty beat list (and empty onsets) and BPM 120; the
online detector's `calculateBPM` returns either 0 (insufficient data) or an
integer in [40, 240], its initial reported BPM is 0, and every kick update
keeps the reported BPM in {0} ∪ [40, 240].  (The original claim that the
online BPM is *positive* in every state is false: it is 0 until enough beats
accumulate.) -/
theorem C2_bpm_contract :
    (∀ (n : ℕ) (sr : ℚ),
      (analyzeAudioBuffer (List.replicate n 0) sr).beats = [] ∧
      (analyzeAudioBuffer (List.replicate n 0) sr).bpm = 120 ∧
      (analyzeAudioBuffer (List.replicate n 0) sr).onsets = []) ∧
    (∀ (data : List ℚ) (sr : ℚ), 40 ≤ (analyzeAudioBuffer data sr).bpm ∧
      (analyzeAudioBuffer data sr).bpm ≤ 240) ∧
    (∀ beats : List ℚ, 40 ≤ computeBPMFromBeats beats ∧
      computeBPMFromBeats beats ≤ 240) ∧
    (∀ beats : List ℚ,
      (consecutiveIntervals (beats.take 50)).filter
        (fun i => decide ((1/4 : ℚ) < i ∧ i < 3/2)) = [] →
      computeBPMFromBeats beats = 120) ∧
    (∀ ts : List ℚ, calculateBPM ts = 0 ∨
      (40 ≤ calculateBPM ts ∧ calculateBPM ts ≤ 240)) ∧
    getBPM BeatDetectorState.init = 0 ∧
    (∀ (s : BeatDetectorState) (now : ℚ),
      s.detectedBPM = 0 ∨ (40 ≤ s.detectedBPM ∧ s.detectedBPM ≤ 240) →
      (stepKick s now).detectedBPM = 0 ∨
        (40 ≤ (stepKick s now).detectedBPM ∧ (stepKick s now).detectedBPM ≤ 240)) := by
  refine ⟨?_, fun data sr => computeBPMFromBeats_bounds _, computeBPMFromBeats_bounds,
    computeBPMFromBeats_fallback, calculateBPM_cases, rfl, ?_⟩
  · intro n sr
    have hws : ∀ p ∈ (windowStarts (List.replicate n (0:ℚ)).length
        (windowSizeOf sr) (hopSizeOf sr)).map
        (fun (i : ℕ) => ((i : ℚ) / sr, windowEnergy (List.replicate n 0) (windowSizeOf sr) i)),
        p.2 = 0 := by
      intro p hp
      obtain ⟨i, hi, rfl⟩ := List.mem_map.1 hp
      exact windowEnergy_replicate_zero n (windowSizeOf sr) i
    have hon := onsetFold_zero _ ⟨0, [], [], []⟩ rfl hws
    have honsets : (analyzeAudioBuffer (List.replicate n 0) sr).onsets = [] := by
      simp only [analyzeAudioBuffer, onsetPass]
      exact hon.1
    have hbeats : (analyzeAudioBuffer (List.replicate n 0) sr).beats = [] := by
      simp only [analyzeAudioBuffer, onsetPass]
      rw [hon.1]
      rfl
    refine ⟨hbeats, ?_, honsets⟩
    have hbpm : (analyzeAudioBuffer (List.replicate n 0) sr).bpm =
        computeBPMFromBeats (dedupeBeats ((analyzeAudioBuffer (List.replicate n 0) sr).onsets) (-1)) := by
      simp only [analyzeAudioBuffer, onsetPass]
    rw [hbpm, honsets]
    show computeBPMFromBeats [] = 120
    simp only [computeBPMFromBeats, consecutiveIntervals, jsRoundQ]
    norm_num
  · intro s now hinv
    simp only [stepKick]
    split_ifs <;> first | exact calculateBPM_cases _ | exact hinv

/-- C2 witness: the kick-update invariant applied to a fresh detector and a
kick at time 1. -/
theorem C2_witness :
    (stepKick BeatDetectorState.init 1).detectedBPM = 0 ∨
    (40 ≤ (stepKick BeatDetectorState.init 1).detectedBPM ∧
      (stepKick BeatDetectorState.init 1).detectedBPM ≤ 240) :=
  C2_bpm_contract.2.2.2.2.2.2 BeatDetectorState.init 1 (Or.inl rfl)

/-- C2 counterexample: the claim that the online detector's reported BPM is
positive in every state is false — a freshly constructed `BeatDetector`
reports BPM 0. -/
theorem C2_counterexample : ¬0 < getBPM BeatDetectorState.init := by
  simp [getBPM, BeatDetectorState.init]

/-! ## Pattern generation (pattern generator module)

`Math.random()` is modeled as an explicit stream `r : ℕ → ℚ` of draws together
with a cursor `k` in the generator state; each call to `Math.random()` reads
`r k` and advances the cursor.  The source relies on `Math.random() ∈ [0, 1)`;
where a draw indexes into a list, an out-of-range draw falls back to the
`getD` default (the JavaScript counterpart would yield `undefined`). -/

/-- Cube colors from `src/types.ts` (`'cyan' | 'orange'`). -/
inductive CubeColor where
  | cyan | orange
  deriving DecidableEq, Repr

/-- `CubeData` from `src/types.ts`; the string id `cube-${spawnId}` is modeled
by the numeric `spawnId`. -/
structure CubeData where
  id : ℕ
  position : Vec3
  color : CubeColor
  active : Bool
  spawnTime : ℚ
  direction : SlashDirection
  row : ℤ
  column : ℤ
  deriving DecidableEq, Repr

/-- `SpawnEvent` from the pattern generator module. -/
structure SpawnEvent where
  time : ℚ
  cubes : List CubeData
  deriving DecidableEq, Repr

/-- The mutable fields of the `PatternGenerator` class, plus the random-stream
cursor `k`. -/
structure GenState where
  lastLeftDirection : SlashDirection
  lastRightDirection : SlashDirection
  lastLeftColumn : ℤ
  lastRightColumn : ℤ
  lastLeftRow : ℤ
  lastRightRow : ℤ
  spawnId : ℕ
  k : ℕ
  deriving DecidableEq, Repr

/-- Field initializers of `PatternGenerator` (also what `reset()` restores). -/
def GenState.initial : GenState :=
  ⟨SlashDirection.DOWN, SlashDirection.DOWN, 0, 3, 1, 1, 0, 0⟩

/-- `PatternGenerator.getMirroredDirection` (lines 202–215). -/
def getMirroredDirection : SlashDirection → SlashDirection
  | SlashDirection.UP => SlashDirection.UP
  | SlashDirection.DOWN => SlashDirection.DOWN
  | SlashDirection.LEFT => SlashDirection.RIGHT
  | SlashDirection.RIGHT => SlashDirection.LEFT
  | SlashDirection.UP_LEFT => SlashDirection.UP_RIGHT
  | SlashDirection.UP_RIGHT => SlashDirection.UP_LEFT
  | SlashDirection.DOWN_LEFT => SlashDirection.DOWN_RIGHT
  | SlashDirection.DOWN_RIGHT => SlashDirection.DOWN_LEFT
  | SlashDirection.ANY => SlashDirection.ANY

/-- `PatternGenerator.getNextColumn` (lines 220–223): nudge the previous
column by −1/0/+1 (70% stay) and clamp into `[minCol, maxCol]`.  Returns the
column and the advanced random cursor. -/
def getNextColumn (r : ℕ → ℚ) (k : ℕ) (lastColumn minCol maxCol : ℤ) : ℤ × ℕ :=
  if r k < 7/10 then (max minCol (min maxCol (lastColumn + 0)), k + 1)
  else if r (k + 1) < 1/2 then (max minCol (min maxCol (lastColumn + -1)), k + 2)
  else (max minCol (min maxCol (lastColumn + 1)), k + 2)

/-- `PatternGenerator.getNextRow` (lines 228–233): 50% middle row, 25% stay,
25% uniformly random row. -/
def getNextRow (r : ℕ → ℚ) (k : ℕ) (lastRow : ℤ) : ℤ × ℕ :=
  let rand := r k
  if rand < 1/2 then (1, k + 1)
  else if rand < 3/4 then (lastRow, k + 1)
  else (Int.floor (r (k + 1) * 3), k + 2)

/-- The direction candidate pool built by `PatternGenerator.getFlowDirection`
(lines 157–196): row-biased base pool plus reversal upweighting after
`UP`/`DOWN`. -/
def flowDirectionPool (lastDir : SlashDirection) (row : ℤ) (isLeft : Bool) :
    List SlashDirection :=
  let base :=
    if row = 0 then
      [SlashDirection.DOWN, SlashDirection.DOWN, SlashDirection.DOWN,
       SlashDirection.DOWN_LEFT, SlashDirection.DOWN_RIGHT,
       if isLeft then SlashDirection.LEFT else SlashDirection.RIGHT]
    else if row = 2 then
      [SlashDirection.UP, SlashDirection.UP, SlashDirection.UP,
       SlashDirection.UP_LEFT, SlashDirection.UP_RIGHT,
       if isLeft then SlashDirection.LEFT else SlashDirection.RIGHT]
    else
      [SlashDirection.DOWN, SlashDirection.DOWN, SlashDirection.UP,
       if isLeft then SlashDirection.LEFT else SlashDirection.RIGHT,
       SlashDirection.DOWN_LEFT, SlashDirection.DOWN_RIGHT]
  if lastDir = SlashDirection.DOWN then base ++ [SlashDirection.UP, SlashDirection.UP]
  else if lastDir = SlashDirection.UP then base ++ [SlashDirection.DOWN, SlashDirection.DOWN]
  else base

/-- `PatternGenerator.getFlowDirection`: pick
`pool[Math.floor(Math.random() * pool.length)]`. -/
def getFlowDirection (r : ℕ → ℚ) (k : ℕ) (lastDir : SlashDirection) (row : ℤ)
    (isLeft : Bool) : SlashDirection × ℕ :=
  let directionPool := flowDirectionPool lastDir row isLeft
  (directionPool.getD (Int.floor (r k * directionPool.length)).toNat
    SlashDirection.DOWN, k + 1)

/-- `PatternGenerator.gridToPosition` (lines 238–242). -/
def gridToPosition (column row : ℤ) : Vec3 :=
  ⟨GAME_CONFIG.GRID_OFFSET_X + column * GAME_CONFIG.COLUMN_SPACING,
   GAME_CONFIG.GRID_OFFSET_Y + row * GAME_CONFIG.ROW_SPACING,
   GAME_CONFIG.SPAWN_Z⟩

/-- `PatternGenerator.generateSingleCube` (lines 62–100); `isLeft` stands for
`side === 'left'`. -/
def generateSingleCube (r : ℕ → ℚ) (s : GenState) (time : ℚ) (color : CubeColor)
    (isLeft : Bool) : CubeData × GenState :=
  let col :=
    if isLeft then getNextColumn r s.k s.lastLeftColumn 0 1
    else getNextColumn r s.k s.lastRightColumn 2 3
  let column := col.1
  let rw1 := getNextRow r col.2 (if isLeft then s.lastLeftRow else s.lastRightRow)
  let row := rw1.1
  let dir := getFlowDirection r rw1.2
    (if isLeft then s.lastLeftDirection else s.lastRightDirection) row isLeft
  let direction := dir.1
  let cube : CubeData :=
    { id := s.spawnId, position := gridToPosition column row, color := color,
      active := true, spawnTime := time, direction := direction,
      row := row, column := column }
  let s' :=
    if isLeft then
      { s with
        lastLeftColumn := column, lastLeftRow := row,
        lastLeftDirection := direction, spawnId := s.spawnId + 1, k := dir.2 }
    else
      { s with
        lastRightColumn := column, lastRightRow := row,
        lastRightDirection := direction, spawnId := s.spawnId + 1, k := dir.2 }
  (cube, s')

/-- `PatternGenerator.generateDoubleCubes` (lines 105–152). -/
def generateDoubleCubes (r : ℕ → ℚ) (s : GenState) (time : ℚ) :
    (CubeData × CubeData) × GenState :=
  let isMirrored := r s.k < 3/5
  let k0 := s.k + 1
  let leftColumn : ℤ := if r k0 < 1/2 then 0 else 1
  let k1 := k0 + 1
  let lr := getNextRow r k1 s.lastLeftRow
  let leftRow := lr.1
  let ld := getFlowDirection r lr.2 s.lastLeftDirection leftRow true
  let leftDirection := ld.1
  let k3 := ld.2
  let rightColumn : ℤ := if r k3 < 1/2 then 2 else 3
  let k4 := k3 + 1
  let rr := if isMirrored then (leftRow, k4) else getNextRow r k4 s.lastRightRow
  let rightRow := rr.1
  let rd := if isMirrored then (getMirroredDirection leftDirection, rr.2)
    else getFlowDirection r rr.2 s.lastRightDirection rightRow false
  let rightDirection := rd.1
  let leftCube : CubeData :=
    { id := s.spawnId, position := gridToPosition leftColumn leftRow,
      color := CubeColor.orange, active := true, spawnTime := time,
      direction := leftDirection, row := leftRow, column := leftColumn }
  let rightCube : CubeData :=
    { id := s.spawnId + 1, position := gridToPosition rightColumn rightRow,
      color := CubeColor.cyan, active := true, spawnTime := time,
      direction := rightDirection, row := rightRow, column := rightColumn }
  let s' :=
    { s with
      lastLeftColumn := leftColumn, lastLeftRow := leftRow,
      lastLeftDirection := leftDirection, lastRightColumn := rightColumn,
      lastRightRow := rightRow, lastRightDirection := rightDirection,
      spawnId := s.spawnId + 2, k := rd.2 }
  ((leftCube, rightCube), s')

/-- `PatternGenerator.getIntensityForBeat` (lines 269–275). -/
noncomputable def getIntensityForBeat (bm : BeatMapQ) (time : ℚ) : ℝ :=
  match bm.events with
  | none => 1/2
  | some es =>
    match es.find? (fun e => decide (|e.time - time| < 1/20)) with
    | some e => e.intensity
    | none => 1/2

/-- The greedy keep/drop loop of `PatternGenerator.filterBeatsByDifficulty`
(lines 253–261). -/
def filterBeatsGo (minInterval : ℚ) : List ℚ → ℚ → List ℚ
  | [], _ => []
  | b :: bs, lastBeat =>
    if b - lastBeat ≥ minInterval then b :: filterBeatsGo minInterval bs b
    else filterBeatsGo minInterval bs lastBeat

/-- `PatternGenerator.filterBeatsByDifficulty` (lines 247–264). -/
def filterBeatsByDifficulty (beats : List ℚ) (difficulty : ℕ) : List ℚ :=
  if difficulty ≥ 3 then beats
  else
    let minInterval : ℚ := if difficulty = 1 then 1/2 else 3/10
    filterBeatsGo minInterval beats (-minInterval)

section GenLoopDefs

open Classical

/-- The per-beat loop body of `PatternGenerator.generateFromBeatMap`
(lines 33–54), iterated over the difficulty-filtered beats.
`isDoubleBlock` consumes a random draw only when the intensity gate passes
(JavaScript `&&` short-circuit), and `isLeftBeat` only when the event is not a
double block. -/
noncomputable def genLoop (r : ℕ → ℚ) (bm : BeatMapQ) (difficulty : ℕ) :
    List ℚ → GenState → List SpawnEvent
  | [], _ => []
  | beat :: rest, s =>
    let intensity := getIntensityForBeat bm beat
    let db : Bool × ℕ :=
      if intensity > 7/10 then
        (decide (r s.k < 1/5 * (difficulty : ℚ)), s.k + 1)
      else (false, s.k)
    let isDoubleBlock := db.1
    let lb : Bool × ℕ :=
      if isDoubleBlock then (false, db.2) else (decide (r db.2 < 1/2), db.2 + 1)
    let isLeftBeat := lb.1
    let s1 : GenState := { s with k := lb.2 }
    if isDoubleBlock then
      let gd := generateDoubleCubes r s1 beat
      ⟨beat, [gd.1.1, gd.1.2]⟩ :: genLoop r bm difficulty rest gd.2
    else if isLeftBeat then
      let gs := generateSingleCube r s1 beat CubeColor.orange true
      ⟨beat, [gs.1]⟩ :: genLoop r bm difficulty rest gs.2
    else
      let gs := generateSingleCube r s1 beat CubeColor.cyan false
      ⟨beat, [gs.1]⟩ :: genLoop r bm difficulty rest gs.2

/-- `PatternGenerator.generateFromBeatMap` (lines 26–57), run from generator
state `s` (a fresh or `reset()` generator has state `GenState.initial`). -/
noncomputable def generateFromBeatMap (r : ℕ → ℚ) (s : GenState) (bm : BeatMapQ)
    (difficulty : ℕ) : List SpawnEvent :=
  genLoop r bm difficulty (filterBeatsByDifficulty bm.beats difficulty) s

end GenLoopDefs

section PatternFacts

lemma filterBeatsGo_sublist (minI : ℚ) (bts : List ℚ) (lastBeat : ℚ) :
    (filterBeatsGo minI bts lastBeat).Sublist bts := by
  induction bts generalizing lastBeat with
  | nil => simp [filterBeatsGo]
  | cons b bs ih =>
    simp only [filterBeatsGo]
    split_ifs
    · exact (ih b).cons₂ b
    · exact (ih lastBeat).cons b

lemma filterBeatsGo_chain (minI : ℚ) (bts : List ℚ) (lastBeat : ℚ) :
    List.Chain' (fun a b => minI ≤ b - a) (filterBeatsGo minI bts lastBeat) ∧
    ∀ h ∈ (filterBeatsGo minI bts lastBeat).head?, minI ≤ h - lastBeat := by
  induction bts generalizing lastBeat with
  | nil => simp [filterBeatsGo]
  | cons b bs ih =>
    simp only [filterBeatsGo]
    split_ifs with hb
    · obtain ⟨hc, hh⟩ := ih b
      refine ⟨List.chain'_cons'.2 ⟨hh, hc⟩, ?_⟩
      intro h hh'
      simp only [List.head?_cons, Option.mem_def, Option.some.injEq] at hh'
      subst hh'
      linarith [hb]
    · exact ih lastBeat

lemma genLoop_map_time (r : ℕ → ℚ) (bm : BeatMapQ) (d : ℕ) (bts : List ℚ) :
    ∀ s : GenState, (genLoop r bm d bts s).map SpawnEvent.time = bts := by
  induction bts with
  | nil => intro s; simp [genLoop]
  | cons b rest ih =>
    intro s
    simp only [genLoop]
    split_ifs <;> simp [ih]

/-- The half-of-grid discipline: orange (left-hand) cubes sit in columns 0–1,
cyan (right-hand) cubes in columns 2–3. -/
def columnOk (c : CubeData) : Prop :=
  (c.color = CubeColor.orange → c.column = 0 ∨ c.column = 1) ∧
  (c.color = CubeColor.cyan → c.column = 2 ∨ c.column = 3)

lemma getNextColumn_bounds (r : ℕ → ℚ) (k : ℕ) (lastColumn minCol maxCol : ℤ)
    (h : minCol ≤ maxCol) :
    minCol ≤ (getNextColumn r k lastColumn minCol maxCol).1 ∧
    (getNextColumn r k lastColumn minCol maxCol).1 ≤ maxCol := by
  unfold getNextColumn
  split_ifs <;> exact ⟨le_max_left _ _, max_le h (min_le_left _ _)⟩

lemma generateSingleCube_left_fields (r : ℕ → ℚ) (s : GenState) (t : ℚ)
    (c : CubeColor) :
    (generateSingleCube r s t c true).1.color = c ∧
    (generateSingleCube r s t c true).1.column =
      (getNextColumn r s.k s.lastLeftColumn 0 1).1 :=
  ⟨rfl, rfl⟩

lemma generateSingleCube_right_fields (r : ℕ → ℚ) (s : GenState) (t : ℚ)
    (c : CubeColor) :
    (generateSingleCube r s t c false).1.color = c ∧
    (generateSingleCube r s t c false).1.column =
      (getNextColumn r s.k s.lastRightColumn 2 3).1 :=
  ⟨rfl, rfl⟩

lemma generateSingleCube_left_columnOk (r : ℕ → ℚ) (s : GenState) (t : ℚ) :
    columnOk (generateSingleCube r s t CubeColor.orange true).1 := by
  obtain ⟨hc, hcol⟩ := generateSingleCube_left_fields r s t CubeColor.orange
  have hb := getNextColumn_bounds r s.k s.lastLeftColumn 0 1 (by norm_num)
  constructor
  · intro _
    rw [hcol]
    omega
  · intro hcy
    exact absurd (hc.symm.trans hcy) (by decide)

lemma generateSingleCube_right_columnOk (r : ℕ → ℚ) (s : GenState) (t : ℚ) :
    columnOk (generateSingleCube r s t CubeColor.cyan false).1 := by
  obtain ⟨hc, hcol⟩ := generateSingleCube_right_fields r s t CubeColor.cyan
  have hb := getNextColumn_bounds r s.k s.lastRightColumn 2 3 (by norm_num)
  constructor
  · intro hor
    exact absurd (hc.symm.trans hor) (by decide)
  · intro _
    rw [hcol]
    omega

lemma generateDoubleCubes_fields (r : ℕ → ℚ) (s : GenState) (t : ℚ) :
    (generateDoubleCubes r s t).1.1.color = CubeColor.orange ∧
    (generateDoubleCubes r s t).1.2.color = CubeColor.cyan ∧
    ((generateDoubleCubes r s t).1.1.column = 0 ∨
      (generateDoubleCubes r s t).1.1.column = 1) ∧
    ((generateDoubleCubes r s t).1.2.column = 2 ∨
      (generateDoubleCubes r s t).1.2.column = 3) := by
  refine ⟨rfl, rfl, ?_, ?_⟩
  · simp only [generateDoubleCubes]
    split_ifs <;> simp
  · simp only [generateDoubleCubes]
    split_ifs <;> simp

lemma generateDoubleCubes_columnOk (r : ℕ → ℚ) (s : GenState) (t : ℚ) :
    columnOk (generateDoubleCubes r s t).1.1 ∧
    columnOk (generateDoubleCubes r s t).1.2 := by
  obtain ⟨h1, h2, h3, h4⟩ := generateDoubleCubes_fields r s t
  constructor
  · exact ⟨fun _ => h3, fun hcy => absurd (h1.symm.trans hcy) (by decide)⟩
  · exact ⟨fun hor => absurd (h2.symm.trans hor) (by decide), fun _ => h4⟩

lemma genLoop_columnOk (r : ℕ → ℚ) (bm : BeatMapQ) (d : ℕ) (bts : List ℚ) :
    ∀ s : GenState, ∀ ev ∈ genLoop r bm d bts s, ∀ c ∈ ev.cubes, columnOk c := by
  induction bts with
  | nil =>
    intro s ev hev
    simp [genLoop] at hev
  | cons b rest ih =>
    intro s ev hev c hc
    simp only [genLoop] at hev
    split_ifs at hev
    all_goals
      rcases List.mem_cons.1 hev with rfl | hev' <;>
        first
          | exact ih _ ev hev' c hc
          | (simp only [List.mem_cons, List.mem_singleton, List.not_mem_nil,
               or_false] at hc
             rcases hc with rfl | rfl
             exacts [(generateDoubleCubes_columnOk r _ b).1,
               (generateDoubleCubes_columnOk r _ b).2])
          | (simp only [List.mem_singleton] at hc
             subst hc
             first
               | exact generateSingleCube_left_columnOk r _ b
               | exact generateSingleCube_right_columnOk r _ b)

end PatternFacts

/-- C8: the difficulty filter keeps every beat at difficulty 3; at
difficulty 1 (minimum gap 0.5 s) and difficulty 2 (0.3 s) the kept beats are
a subsequence of the input whose consecutive gaps all reach the minimum
(greedy dropping of too-close beats); and a beat map with beats
`[0, 0.5, 1, 1.5]` at difficulty 1 produces exactly the 4 spawn events at
those times, none dropped, for every random stream and generator state. -/
theorem C8_difficulty_filter :
    (∀ beats : List ℚ, filterBeatsByDifficulty beats 3 = beats) ∧
    (∀ (beats : List ℚ) (d : ℕ), d = 1 ∨ d = 2 →
      List.Chain' (fun a b => (if d = 1 then (1/2 : ℚ) else 3/10) ≤ b - a)
        (filterBeatsByDifficulty beats d) ∧
      (filterBeatsByDifficulty beats d).Sublist beats) ∧
    (∀ (r : ℕ → ℚ) (s : GenState) (bm : BeatMapQ),
      bm.beats = [0, 1/2, 1, 3/2] →
      (generateFromBeatMap r s bm 1).map SpawnEvent.time = [0, 1/2, 1, 3/2] ∧
      (generateFromBeatMap r s bm 1).length = 4) := by
  have hfilter1 : ∀ beats : List ℚ,
      filterBeatsByDifficulty beats 1 = filterBeatsGo (1/2) beats (-(1/2)) := by
    intro beats
    simp [filterBeatsByDifficulty]
  refine ⟨?_, ?_, ?_⟩
  · intro beats
    simp [filterBeatsByDifficulty]
  · intro beats d hd
    rcases hd with rfl | rfl
    · simp only [if_pos rfl, hfilter1]
      exact ⟨(filterBeatsGo_chain _ _ _).1, filterBeatsGo_sublist _ _ _⟩
    · have : filterBeatsByDifficulty beats 2 = filterBeatsGo (3/10) beats (-(3/10)) := by
        simp [filterBeatsByDifficulty]
      rw [this]
      norm_num
      exact ⟨(filterBeatsGo_chain _ _ _).1, filterBeatsGo_sublist _ _ _⟩
  · intro r s bm hb
    have hfil : filterBeatsByDifficulty bm.beats 1 = [0, 1/2, 1, 3/2] := by
      rw [hb, hfilter1]
      norm_num [filterBeatsGo]
    have hmap : (generateFromBeatMap r s bm 1).map SpawnEvent.time = [0, 1/2, 1, 3/2] := by
      unfold generateFromBeatMap
      rw [hfil]
      exact genLoop_map_time r bm 1 _ s
    refine ⟨hmap, ?_⟩
    have := congrArg List.length hmap
    simpa using this

/-- C8 witness: the scenario applied to a concrete beat map and the constant
stream 0. -/
theorem C8_witness :
    (generateFromBeatMap (fun _ => 0) GenState.initial ⟨120, [0, 1/2, 1, 3/2], [], none⟩ 1).map
      SpawnEvent.time = [0, 1/2, 1, 3/2] :=
  (C8_difficulty_filter.2.2 (fun _ => 0) GenState.initial ⟨120, [0, 1/2, 1, 3/2], [], none⟩ rfl).1

/-- C9: every cube the pattern generator emits keeps its column inside its
hand's half of the grid (orange/left in columns 0–1, cyan/right in 2–3), for
every beat map, difficulty, random stream and starting state; and in a
mirrored double block (mirror draw < 0.6) the right cube's direction is
exactly the defined mirror of the left cube's direction. -/
theorem C9_pattern_invariants :
    (∀ (r : ℕ → ℚ) (s : GenState) (bm : BeatMapQ) (d : ℕ),
      ∀ ev ∈ generateFromBeatMap r s bm d, ∀ c ∈ ev.cubes, columnOk c) ∧
    (∀ (r : ℕ → ℚ) (s : GenState) (t : ℚ),
      r s.k < 3/5 →
      (generateDoubleCubes r s t).1.2.direction =
        getMirroredDirection (generateDoubleCubes r s t).1.1.direction) := by
  constructor
  · intro r s bm d ev hev c hc
    exact genLoop_columnOk r bm d _ s ev hev c hc
  · intro r s t h
    simp only [generateDoubleCubes, if_pos h]

/-- C9 witness: the mirrored-pair part applied to a concrete stream (constant
0, so the mirror draw 0 < 0.6 makes the pair mirrored). -/
theorem C9_witness :
    (generateDoubleCubes (fun _ => 0) GenState.initial 1).1.2.direction =
      getMirroredDirection (generateDoubleCubes (fun _ => 0) GenState.initial 1).1.1.direction :=
  C9_pattern_invariants.2 (fun _ => 0) GenState.initial 1 (by norm_num)

end NeonSaber
